import Mathlib

/-
Verification of the request-signing and channel-authorization core of a
Pusher HTTP-API client library targeting Web Crypto runtimes
(src/pusher.ts, re-exported by src/index.ts, and the standalone
src/auth.ts class, together with src/types.ts).

The development shallowly embeds the signing core:
byte strings are lists of naturals below 256, machine words are naturals
reduced modulo 2 to the 32, and the ambient Web Crypto primitive
(crypto.subtle digest and HMAC sign, both of which are asynchronous and
may reject) is modelled as an explicit record of fallible functions.
A rejected promise escaping a method is modelled as Except.error, and
a JavaScript try/catch is modelled by matching on that Except.
-/

namespace PusherCF

/-! ### SHA-256 and HMAC-SHA256 over byte lists

The library performs HMAC-SHA256 by calling the runtime primitive
crypto.subtle.importKey followed by crypto.subtle.sign. The reference
computation performed by a conforming runtime is embedded here after
FIPS 180-4 and RFC 2104; it is validated below against the standard
test vectors (sha256 of the string abc, and the well-known
HMAC-SHA256 quick-brown-fox vector). -/

/-- Addition of two 32-bit words with wraparound. -/
def add32 (a b : Nat) : Nat := (a + b) % 4294967296

/-- Right rotation of a 32-bit word by n bits. -/
def rotr32 (n x : Nat) : Nat :=
  ((x >>> n) ||| (x <<< (32 - n))) % 4294967296

/-- SHA-256 round constants (FIPS 180-4 section 4.2.2). -/
def shaK : List Nat :=
  [1116352408, 1899447441, 3049323471, 3921009573,
   961987163, 1508970993, 2453635748, 2870763221,
   3624381080, 310598401, 607225278, 1426881987,
   1925078388, 2162078206, 2614888103, 3248222580,
   3835390401, 4022224774, 264347078, 604807628,
   770255983, 1249150122, 1555081692, 1996064986,
   2554220882, 2821834349, 2952996808, 3210313671,
   3336571891, 3584528711, 113926993, 338241895,
   666307205, 773529912, 1294757372, 1396182291,
   1695183700, 1986661051, 2177026350, 2456956037,
   2730485921, 2820302411, 3259730800, 3345764771,
   3516065817, 3600352804, 4094571909, 275423344,
   430227734, 506948616, 659060556, 883997877,
   958139571, 1322822218, 1537002063, 1747873779,
   1955562222, 2024104815, 2227730452, 2361852424,
   2428436474, 2756734187, 3204031479, 3329325298]
/-- The running SHA-256 hash state: eight 32-bit words. -/
structure ShaState where
  a : Nat
  b : Nat
  c : Nat
  d : Nat
  e : Nat
  f : Nat
  g : Nat
  h : Nat

/-- Initial SHA-256 hash value (FIPS 180-4 section 5.3.3). -/
def shaH0 : ShaState :=
  ⟨1779033703, 3144134277, 1013904242, 2773480762,
   1359893119, 2600822924, 528734635, 1541459225⟩

/-- One SHA-256 compression round; kw is the round constant already added
to the message-schedule word. -/
def shaRound (st : ShaState) (kw : Nat) : ShaState :=
  let s1 := (rotr32 6 st.e) ^^^ (rotr32 11 st.e) ^^^ (rotr32 25 st.e)
  let ch := (st.e &&& st.f) ^^^ ((st.e ^^^ 4294967295) &&& st.g)
  let t1 := add32 (add32 (add32 st.h s1) ch) kw
  let s0 := (rotr32 2 st.a) ^^^ (rotr32 13 st.a) ^^^ (rotr32 22 st.a)
  let mj := (st.a &&& st.b) ^^^ (st.a &&& st.c) ^^^ (st.b &&& st.c)
  let t2 := add32 s0 mj
  ⟨add32 t1 t2, st.a, st.b, st.c, add32 st.d t1, st.e, st.f, st.g⟩

/-- Lower sigma-0 message-schedule function. -/
def ssig0 (x : Nat) : Nat := (rotr32 7 x) ^^^ (rotr32 18 x) ^^^ (x >>> 3)

/-- Lower sigma-1 message-schedule function. -/
def ssig1 (x : Nat) : Nat := (rotr32 17 x) ^^^ (rotr32 19 x) ^^^ (x >>> 10)

/-- Extend a 16-word block by the given number of schedule words. -/
def extendWords (w : List Nat) : Nat → List Nat
  | 0 => w
  | n + 1 =>
    let w' := extendWords w n
    let i := w'.length
    if i < 16 then w'
    else w' ++ [add32 (add32 (ssig1 (w'.getD (i - 2) 0)) (w'.getD (i - 7) 0))
                      (add32 (ssig0 (w'.getD (i - 15) 0)) (w'.getD (i - 16) 0))]

/-- Compress one 16-word block into the state. -/
def shaCompress (st : ShaState) (block : List Nat) : ShaState :=
  let w := extendWords block 48
  let st' := (List.zipWith (fun k wi => add32 k wi) shaK w).foldl shaRound st
  ⟨add32 st.a st'.a, add32 st.b st'.b, add32 st.c st'.c, add32 st.d st'.d,
   add32 st.e st'.e, add32 st.f st'.f, add32 st.g st'.g, add32 st.h st'.h⟩

/-- Group bytes four at a time into big-endian 32-bit words. -/
def words4 : List Nat → List Nat
  | b0 :: b1 :: b2 :: b3 :: rest =>
    (b0 * 16777216 + b1 * 65536 + b2 * 256 + b3) :: words4 rest
  | _ => []

/-- Group a word list into blocks of sixteen words. -/
def blocks16 : List Nat → List (List Nat)
  | w0 :: w1 :: w2 :: w3 :: w4 :: w5 :: w6 :: w7 ::
    w8 :: w9 :: w10 :: w11 :: w12 :: w13 :: w14 :: w15 :: rest =>
    [w0, w1, w2, w3, w4, w5, w6, w7, w8, w9, w10, w11, w12, w13, w14, w15] :: blocks16 rest
  | _ => []

/-- Big-endian eight-byte encoding of a natural number. -/
def be64 (n : Nat) : List Nat :=
  [(n >>> 56) % 256, (n >>> 48) % 256, (n >>> 40) % 256, (n >>> 32) % 256,
   (n >>> 24) % 256, (n >>> 16) % 256, (n >>> 8) % 256, n % 256]

/-- SHA-256 message padding: a 0x80 byte, zeros to 56 mod 64, then the
bit length as a big-endian 64-bit integer. -/
def shaPad (msg : List Nat) : List Nat :=
  let len := msg.length
  let k := (119 - (len % 64)) % 64
  msg ++ [128] ++ List.replicate k 0 ++ be64 (len * 8)

/-- Serialize one 32-bit word as four big-endian bytes. -/
def word4 (w : Nat) : List Nat :=
  [(w >>> 24) % 256, (w >>> 16) % 256, (w >>> 8) % 256, w % 256]

/-- Serialize the hash state as 32 big-endian bytes. -/
def stateBytes (st : ShaState) : List Nat :=
  word4 st.a ++ word4 st.b ++ word4 st.c ++ word4 st.d ++
  word4 st.e ++ word4 st.f ++ word4 st.g ++ word4 st.h

/-- SHA-256 of a byte list. -/
def sha256 (msg : List Nat) : List Nat :=
  stateBytes ((blocks16 (words4 (shaPad msg))).foldl shaCompress shaH0)

/-- HMAC-SHA256 of a message under a key, both byte lists (RFC 2104). -/
def hmacSha256 (key msg : List Nat) : List Nat :=
  let key0 := if key.length > 64 then sha256 key else key
  let keyPad := key0 ++ List.replicate (64 - key0.length) 0
  let inner := sha256 ((keyPad.map (fun b => b ^^^ 0x36)) ++ msg)
  sha256 ((keyPad.map (fun b => b ^^^ 0x5c)) ++ inner)

/-- The sixteen lowercase hex digits, as produced by the JavaScript
expression b.toString(16) for digit values. -/
def hexAlphabet : List Char := "0123456789abcdef".data

/-- Lowercase hex digit for a value below 16. -/
def hexDigit (n : Nat) : Char := hexAlphabet.getD n '0'

/-- Lowercase, two-digit-per-byte hex encoding of a byte list. This is
the model of the source expression
hashArray.map(b and b.toString(16).padStart(2, ...)).join(...) for
byte values below 256. -/
def bytesToHex (bs : List Nat) : String :=
  ⟨bs.flatMap (fun b => [hexDigit (b / 16), hexDigit (b % 16)])⟩

/-- UTF-8 encoding of one character, code point to bytes; this is the
model of TextEncoder.encode restricted to a single scalar value. -/
def utf8Char (c : Char) : List Nat :=
  let n := c.toNat
  if n < 128 then [n]
  else if n < 2048 then [192 + n / 64, 128 + n % 64]
  else if n < 65536 then [224 + n / 4096, 128 + (n / 64) % 64, 128 + n % 64]
  else [240 + n / 262144, 128 + (n / 4096) % 64, 128 + (n / 64) % 64, 128 + n % 64]

/-- UTF-8 encoding of a string: the model of TextEncoder.encode. -/
def utf8 (s : String) : List Nat := s.data.flatMap utf8Char

/-- HMAC-SHA256 of UTF-8 strings with lowercase hex output: the value a
conforming Web Crypto runtime returns for the importKey/sign pair used
throughout the library, already hex-encoded the way the library encodes
it. -/
def hmacHex (secret data : String) : String :=
  bytesToHex (hmacSha256 (utf8 secret) (utf8 data))

/-! ### A minimal JSON value universe

The presence member data handed to authenticatePresenceChannel is a
user_id string plus an optional user_info object of serializable
values. Its serializable payloads are modelled by the value universe
below (strings and objects with insertion-ordered fields, the forms
exercised by the library and its specification). JSON.stringify and
JSON.parse are modelled on this universe after ECMA-404/ECMA-262:
stringify emits no whitespace, escapes quote, backslash and control
characters exactly as JSON.stringify does, and parse is a
recursive-descent reader of that grammar. -/

inductive Json where
  | str : String → Json
  | obj : List (String × Json) → Json

/-- Opening brace character. -/
def lbrace : Char := Char.ofNat 123

/-- Closing brace character. -/
def rbrace : Char := Char.ofNat 125

/-- JSON.stringify escaping of one character inside a string literal:
quote and backslash get a backslash; backspace, tab, newline, formfeed
and carriage return get their two-character escapes; remaining control
characters get a lowercase four-hex-digit escape; everything else is
emitted verbatim. -/
def escapeChar (c : Char) : List Char :=
  if c = '"' then ['\\', '"']
  else if c = '\\' then ['\\', '\\']
  else if c.toNat = 8 then ['\\', 'b']
  else if c.toNat = 9 then ['\\', 't']
  else if c.toNat = 10 then ['\\', 'n']
  else if c.toNat = 12 then ['\\', 'f']
  else if c.toNat = 13 then ['\\', 'r']
  else if c.toNat < 32 then ['\\', 'u', '0', '0', hexDigit (c.toNat / 16), hexDigit (c.toNat % 16)]
  else [c]

/-- A JSON string literal: quote, escaped body, quote. -/
def quoteString (s : String) : List Char :=
  '"' :: (s.data.flatMap escapeChar ++ ['"'])

mutual

/-- JSON.stringify on the modelled value universe, as a character list. -/
def stringifyJson : Json → List Char
  | .str s => quoteString s
  | .obj fs => lbrace :: (stringifyFields fs ++ [rbrace])

/-- Object fields, comma-separated, key colon value. -/
def stringifyFields : List (String × Json) → List Char
  | [] => []
  | (k, v) :: rest => quoteString k ++ ':' :: (stringifyJson v ++ stringifySep rest)

/-- Remaining fields, each preceded by a comma. -/
def stringifySep : List (String × Json) → List Char
  | [] => []
  | (k, v) :: rest => ',' :: (quoteString k ++ ':' :: (stringifyJson v ++ stringifySep rest))

end

/-- JSON.stringify on the modelled value universe, as a string. -/
def stringifyStr (j : Json) : String := ⟨stringifyJson j⟩

/-- Numeric value of a hex digit character, accepting both cases, as
JSON.parse does inside a four-digit unicode escape. -/
def hexVal (c : Char) : Option Nat :=
  let n := c.toNat
  if 48 ≤ n ∧ n ≤ 57 then some (n - 48)
  else if 97 ≤ n ∧ n ≤ 102 then some (n - 87)
  else if 65 ≤ n ∧ n ≤ 70 then some (n - 55)
  else none

/-- Read the body of a JSON string literal after its opening quote,
undoing the escape sequences; returns the decoded characters and the
input remaining after the closing quote. -/
def parseStrChars : List Char → Option (List Char × List Char)
  | [] => none
  | c :: rest =>
    if c = '"' then some ([], rest)
    else if c = '\\' then
      match rest with
      | [] => none
      | e :: r2 =>
        if e = '"' then (parseStrChars r2).map (fun p => ('"' :: p.1, p.2))
        else if e = '\\' then (parseStrChars r2).map (fun p => ('\\' :: p.1, p.2))
        else if e = '/' then (parseStrChars r2).map (fun p => ('/' :: p.1, p.2))
        else if e = 'b' then (parseStrChars r2).map (fun p => (Char.ofNat 8 :: p.1, p.2))
        else if e = 't' then (parseStrChars r2).map (fun p => (Char.ofNat 9 :: p.1, p.2))
        else if e = 'n' then (parseStrChars r2).map (fun p => (Char.ofNat 10 :: p.1, p.2))
        else if e = 'f' then (parseStrChars r2).map (fun p => (Char.ofNat 12 :: p.1, p.2))
        else if e = 'r' then (parseStrChars r2).map (fun p => (Char.ofNat 13 :: p.1, p.2))
        else if e = 'u' then
          match r2 with
          | h1 :: h2 :: h3 :: h4 :: r3 =>
            match hexVal h1, hexVal h2, hexVal h3, hexVal h4 with
            | some v1, some v2, some v3, some v4 =>
              (parseStrChars r3).map
                (fun p => (Char.ofNat (v1 * 4096 + v2 * 256 + v3 * 16 + v4) :: p.1, p.2))
            | _, _, _, _ => none
          | _ => none
        else none
    else (parseStrChars rest).map (fun p => (c :: p.1, p.2))
termination_by structural l => l

mutual

/-- Read one JSON value of the modelled universe (string literal or
object). The fuel argument bounds the nesting-driven recursion. -/
def parseVal : Nat → List Char → Option (Json × List Char)
  | 0, _ => none
  | _ + 1, [] => none
  | fuel + 1, c :: rest =>
    if c = '"' then
      (parseStrChars rest).map (fun p => (Json.str ⟨p.1⟩, p.2))
    else if c = lbrace then
      match rest with
      | [] => none
      | d :: r2 =>
        if d = rbrace then some (.obj [], r2)
        else (parseFields fuel (d :: r2)).map (fun q => (Json.obj q.1, q.2))
    else none

/-- Read a non-empty comma-separated field list followed by the closing
brace: a string key, a colon, a value, then either a comma and more
fields or the closing brace. -/
def parseFields : Nat → List Char → Option (List (String × Json) × List Char)
  | 0, _ => none
  | _ + 1, [] => none
  | fuel + 1, c :: rest =>
    if c = '"' then
      (parseStrChars rest).bind (fun pk =>
        match pk.2 with
        | ':' :: r2 =>
          (parseVal fuel r2).bind (fun pv =>
            match pv.2 with
            | [] => none
            | s :: r4 =>
              if s = ',' then
                (parseFields fuel r4).map (fun pr => ((⟨pk.1⟩, pv.1) :: pr.1, pr.2))
              else if s = rbrace then some ([(⟨pk.1⟩, pv.1)], r4)
              else none)
        | _ => none)
    else none

end

/-- JSON.parse on the modelled universe: read one value and require the
input to be fully consumed. -/
def JSONparse (s : String) : Option Json :=
  match parseVal (s.length + 1) s.data with
  | some (j, []) => some j
  | _ => none

mutual

/-- Size measure for the fuel bound of parseVal. -/
def sizeJson : Json → Nat
  | .str _ => 1
  | .obj fs => sizeFields fs + 1

/-- Size measure for the fuel bound of parseFields. -/
def sizeFields : List (String × Json) → Nat
  | [] => 1
  | (_, v) :: rest => sizeJson v + sizeFields rest + 1

end

/-! ### The ambient cryptographic runtime

The source calls the global Web Crypto object: crypto.subtle.digest
for the body checksum and crypto.subtle.importKey plus
crypto.subtle.sign for HMAC-SHA256. Both calls return promises that
may reject; a rejection surfaces in the embedding as Except.error
carrying the error message. The record below is the behaviour of that
ambient primitive as seen by the library: md5Hex is the hex-encoded
MD5 digest call (MD5 is frequently unsupported, in which case it
rejects), and sign is the hex-encoded import-and-sign HMAC-SHA256
pipeline applied to a secret and a message. -/
structure CryptoRuntime where
  md5Hex : String → Except String String
  sign : String → String → Except String String

/-- A conforming Web Crypto runtime whose HMAC-SHA256 pipeline always
succeeds and computes the reference value; the MD5 digest behaves as
the given function, since MD5 availability varies by environment. -/
def webCrypto (md5f : String → Except String String) : CryptoRuntime :=
  ⟨md5f, fun secret msg => .ok (hmacHex secret msg)⟩

/-- A runtime on which the MD5 digest call rejects (the documented
Cloudflare situation) while HMAC-SHA256 works normally. -/
def degradedCrypto (e : String) : CryptoRuntime :=
  ⟨fun _ => .error e, fun secret msg => .ok (hmacHex secret msg)⟩

/-- A runtime whose signing pipeline itself fails, for example on key
import; the MD5 digest behaves as the given function. -/
def failingSignCrypto (e : String) (md5f : String → Except String String) : CryptoRuntime :=
  ⟨md5f, fun _ _ => .error e⟩

/-! ### Embedding of src/types.ts and src/pusher.ts -/

/-- Response shape of trigger and triggerBatch (src/types.ts). -/
structure TriggerResponse where
  success : Bool
  error : Option String
  status : Option Nat
deriving DecidableEq, Repr

/-- Authentication response for private and presence channels
(src/types.ts). The shared_secret field of the source interface is
never produced by this library and is omitted. -/
structure AuthResponse where
  auth : String
  channel_data : Option String
deriving DecidableEq, Repr

/-- Presence channel member data (src/types.ts): a required user_id
and an optional serializable user_info record, the latter modelled in
the Json universe above. -/
structure PresenceMemberData where
  user_id : String
  user_info : Option Json

/-- The immutable fields of a Pusher client instance, as assigned by
the constructor in src/pusher.ts. The derived baseUrl only feeds the
network call and is not materialized here. -/
structure Pusher where
  appId : String
  key : String
  secret : String
  cluster : String
  useTLS : Bool
deriving DecidableEq, Repr

/-- JavaScript truthiness of an optional string: undefined and the
empty string are falsy. -/
def strTruthy : Option String → Bool
  | none => false
  | some s => !(s == "")

/-- The name equals value entries of the canonical query parameter
array built inside createSignature, in its insertion order: auth_key,
auth_timestamp, auth_version, then body_md5 only when the md5 argument
is truthy (present and non-empty). -/
def signedQueryEntries (key : String) (timestamp : Int) (md5 : Option String) : List String :=
  ["auth_key=" ++ key, "auth_timestamp=" ++ toString timestamp, "auth_version=1.0"] ++
    (if strTruthy md5 then ["body_md5=" ++ md5.getD ""] else [])

/-- The canonical string signed by createSignature:
method, newline, path, newline, ampersand-joined query entries. -/
def stringToSignOf (key : String) (method path : String) (timestamp : Int)
    (md5 : Option String) : String :=
  method ++ "\n" ++ path ++ "\n" ++ String.intercalate "&" (signedQueryEntries key timestamp md5)

/-- Pusher.createSignature (src/pusher.ts): builds the canonical
string and hands it with this.secret to the runtime HMAC-SHA256
pipeline. The body argument exists in the source signature but is
never read. A rejection of the primitive propagates: the method has no
try/catch of its own. -/
def Pusher.createSignature (rt : CryptoRuntime) (p : Pusher) (method path : String)
    (timestamp : Int) (body md5 : Option String) : Except String String :=
  rt.sign p.secret (stringToSignOf p.key method path timestamp md5)

/-- Pusher.computeMD5 (src/pusher.ts): hex MD5 of the body via the
runtime digest; the catch branch converts an unsupported-algorithm
rejection into the empty string (logging a warning). -/
def Pusher.computeMD5 (rt : CryptoRuntime) (str : String) : String :=
  match rt.md5Hex str with
  | .ok h => h
  | .error _ => ""

/-- Pusher.computeHMAC (src/pusher.ts): HMAC-SHA256 of the data under
this.secret via the runtime pipeline, hex-encoded; no catch, so a
primitive failure propagates. -/
def Pusher.computeHMAC (rt : CryptoRuntime) (p : Pusher) (data : String) : Except String String :=
  rt.sign p.secret data

/-- The outgoing query parameters of trigger and triggerBatch in the
insertion order of the URLSearchParams literal in the source. Note
that body_md5 is always present, with whatever value computeMD5
returned, including the empty string of the degraded fallback. -/
def triggerQueryPairs (key tsStr md5 signature : String) : List (String × String) :=
  [("auth_key", key), ("auth_timestamp", tsStr), ("auth_version", "1.0"),
   ("body_md5", md5), ("auth_signature", signature)]

/-- The pre-network stage of Pusher.trigger for an already-serialized
body: compute the body digest (with its internal fallback), sign, and
assemble the outgoing query parameters. An error is a rejection thrown
inside this stage, before the try/catch conversion is applied. -/
def Pusher.triggerRequestParams (rt : CryptoRuntime) (p : Pusher) (timestamp : Int)
    (body : String) : Except String (List (String × String)) :=
  let md5 := Pusher.computeMD5 rt body
  match Pusher.createSignature rt p "POST" ("/apps/" ++ p.appId ++ "/events") timestamp
      (some body) (some md5) with
  | .error e => .error e
  | .ok signature => .ok (triggerQueryPairs p.key (toString timestamp) md5 signature)

/-- The same stage for Pusher.triggerBatch, whose path is batch_events. -/
def Pusher.triggerBatchRequestParams (rt : CryptoRuntime) (p : Pusher) (timestamp : Int)
    (body : String) : Except String (List (String × String)) :=
  let md5 := Pusher.computeMD5 rt body
  match Pusher.createSignature rt p "POST" ("/apps/" ++ p.appId ++ "/batch_events") timestamp
      (some body) (some md5) with
  | .error e => .error e
  | .ok signature => .ok (triggerQueryPairs p.key (toString timestamp) md5 signature)

/-- Outcome of the fetch call inside trigger: a 2xx response, a non-ok
response carrying its status and error text, or a thrown network
error. The network itself is outside the signing core. -/
inductive FetchOutcome where
  | success : FetchOutcome
  | httpError : Nat → String → FetchOutcome
  | thrown : String → FetchOutcome

/-- Pusher.trigger from the point where the body string exists. The
outer Except layer represents an exception escaping the method; the
try/catch in the source converts every rejection raised inside it,
cryptographic ones included, into an ordinary TriggerResponse value,
so the result is always Except.ok. -/
def Pusher.trigger (rt : CryptoRuntime) (network : FetchOutcome) (p : Pusher)
    (timestamp : Int) (body : String) : Except String TriggerResponse :=
  .ok (match Pusher.triggerRequestParams rt p timestamp body, network with
    | .error e, _ => ⟨false, some e, none⟩
    | .ok _, .success => ⟨true, none, none⟩
    | .ok _, .httpError status text =>
      ⟨false, some (if text == "" then "HTTP " ++ toString status else text), some status⟩
    | .ok _, .thrown e => ⟨false, some e, none⟩)

/-- Pusher.triggerBatch from the point where the batch body string
exists: the source wraps the same digest-sign-fetch pipeline as
trigger in an identical try/catch, so every rejection raised inside
it, cryptographic ones included, is converted into an ordinary
TriggerResponse value and the result is always Except.ok. -/
def Pusher.triggerBatch (rt : CryptoRuntime) (network : FetchOutcome) (p : Pusher)
    (timestamp : Int) (body : String) : Except String TriggerResponse :=
  .ok (match Pusher.triggerBatchRequestParams rt p timestamp body, network with
    | .error e, _ => ⟨false, some e, none⟩
    | .ok _, .success => ⟨true, none, none⟩
    | .ok _, .httpError status text =>
      ⟨false, some (if text == "" then "HTTP " ++ toString status else text), some status⟩
    | .ok _, .thrown e => ⟨false, some e, none⟩)

/-- Query parameters sent by getChannel, in URLSearchParams insertion
order: the three auth entries, then info when the caller supplied an
options object with an info array, then the signature appended by
query.set. -/
def getChannelQueryPairs (key tsStr : String) (info : Option (List String))
    (signature : String) : List (String × String) :=
  [("auth_key", key), ("auth_timestamp", tsStr), ("auth_version", "1.0")] ++
    (match info with
     | some l => [("info", String.intercalate "," l)]
     | none => []) ++
    [("auth_signature", signature)]

/-- Pusher.getChannel up to its network call: note that the signature
is created over GET, the channel path and the timestamp only, with
neither a body digest nor the info parameter. No try/catch, so a
signing rejection propagates. -/
def Pusher.getChannelParams (rt : CryptoRuntime) (p : Pusher) (timestamp : Int)
    (channel : String) (info : Option (List String)) :
    Except String (List (String × String)) :=
  let path := "/apps/" ++ p.appId ++ "/channels/" ++ channel
  match Pusher.createSignature rt p "GET" path timestamp none none with
  | .error e => .error e
  | .ok signature => .ok (getChannelQueryPairs p.key (toString timestamp) info signature)

/-- Query parameters sent by getChannels: the three auth entries, the
filter_by_prefix entry when the prefix argument is truthy, the info
entry when supplied, then the appended signature. -/
def getChannelsQueryPairs (key tsStr : String) (filterPfx : Option String)
    (info : Option (List String)) (signature : String) : List (String × String) :=
  [("auth_key", key), ("auth_timestamp", tsStr), ("auth_version", "1.0")] ++
    (if strTruthy filterPfx then [("filter_by_prefix", filterPfx.getD "")] else []) ++
    (match info with
     | some l => [("info", String.intercalate "," l)]
     | none => []) ++
    [("auth_signature", signature)]

/-- Pusher.getChannels up to its network call: the signature again
covers only GET, the channels path and the timestamp. -/
def Pusher.getChannelsParams (rt : CryptoRuntime) (p : Pusher) (timestamp : Int)
    (filterPfx : Option String) (info : Option (List String)) :
    Except String (List (String × String)) :=
  let path := "/apps/" ++ p.appId ++ "/channels"
  match Pusher.createSignature rt p "GET" path timestamp none none with
  | .error e => .error e
  | .ok signature => .ok (getChannelsQueryPairs p.key (toString timestamp) filterPfx info signature)

/-- Pusher.authorizeChannel (src/pusher.ts): validate, sign
socketId colon channel, and return auth as key colon signature. The
validation throws before any cryptographic call; the embedding keeps
the source's error message. -/
def Pusher.authorizeChannel (rt : CryptoRuntime) (p : Pusher) (socketId channel : String) :
    Except String AuthResponse :=
  if socketId == "" || channel == "" then
    .error "Socket ID and channel are required for authorization"
  else
    match Pusher.computeHMAC rt p (socketId ++ ":" ++ channel) with
    | .error e => .error e
    | .ok signature => .ok ⟨p.key ++ ":" ++ signature, none⟩

/-- JSON.stringify of the presence member object, whose insertion
order is user_id then user_info, the latter omitted when undefined. -/
def memberJson (pd : PresenceMemberData) : Json :=
  .obj (("user_id", .str pd.user_id) ::
    (match pd.user_info with
     | some j => [("user_info", j)]
     | none => []))

/-- The channelData string serialized and signed by
authenticatePresenceChannel. -/
def memberDataString (pd : PresenceMemberData) : String :=
  stringifyStr (memberJson pd)

/-- Pusher.authenticatePresenceChannel (src/pusher.ts): validate the
three arguments and the user_id field, serialize the member data,
sign socketId colon channel colon channelData, and return both the
auth string and the exact channelData that was signed. -/
def Pusher.authenticatePresenceChannel (rt : CryptoRuntime) (p : Pusher)
    (socketId channel : String) (presenceData : Option PresenceMemberData) :
    Except String AuthResponse :=
  if socketId == "" || channel == "" || presenceData.isNone then
    .error "Socket ID, channel, and presence data are required"
  else
    match presenceData with
    | none => .error "Socket ID, channel, and presence data are required"
    | some pd =>
      if pd.user_id == "" then .error "user_id is required in presence data"
      else
        let channelData := memberDataString pd
        match Pusher.computeHMAC rt p (socketId ++ ":" ++ channel ++ ":" ++ channelData) with
        | .error e => .error e
        | .ok signature => .ok ⟨p.key ++ ":" ++ signature, some channelData⟩

/-! ### Embedding of src/auth.ts, the standalone PusherAuth class -/

/-- The immutable fields of a PusherAuth instance. -/
structure PusherAuth where
  key : String
  secret : String
deriving DecidableEq, Repr

/-- PusherAuth.computeHMAC (src/auth.ts). -/
def PusherAuth.computeHMAC (rt : CryptoRuntime) (a : PusherAuth) (data : String) :
    Except String String :=
  rt.sign a.secret data

/-- PusherAuth.authorizeChannel (src/auth.ts). -/
def PusherAuth.authorizeChannel (rt : CryptoRuntime) (a : PusherAuth)
    (socketId channel : String) : Except String AuthResponse :=
  if socketId == "" || channel == "" then
    .error "Socket ID and channel are required for authorization"
  else
    match PusherAuth.computeHMAC rt a (socketId ++ ":" ++ channel) with
    | .error e => .error e
    | .ok signature => .ok ⟨a.key ++ ":" ++ signature, none⟩

/-- PusherAuth.authenticatePresenceChannel (src/auth.ts). -/
def PusherAuth.authenticatePresenceChannel (rt : CryptoRuntime) (a : PusherAuth)
    (socketId channel : String) (presenceData : Option PresenceMemberData) :
    Except String AuthResponse :=
  if socketId == "" || channel == "" || presenceData.isNone then
    .error "Socket ID, channel, and presence data are required"
  else
    match presenceData with
    | none => .error "Socket ID, channel, and presence data are required"
    | some pd =>
      if pd.user_id == "" then .error "user_id is required in presence data"
      else
        let channelData := memberDataString pd
        match PusherAuth.computeHMAC rt a (socketId ++ ":" ++ channel ++ ":" ++ channelData) with
        | .error e => .error e
        | .ok signature => .ok ⟨a.key ++ ":" ++ signature, some channelData⟩

/-! ### Spec-side definitions and concrete fixtures -/

/-- The canonical query string exactly as the specification words it:
auth_key, auth_timestamp, auth_version joined by ampersands, with
body_md5 appended only when a non-empty digest is supplied, and the
pair omitted entirely (not included with an empty value) when the
digest is absent. Written from the specification for comparison with
the source-derived signedQueryEntries. -/
def specCanonicalQuery (key : String) (timestamp : Int) (digest : Option String) : String :=
  String.intercalate "&"
    (["auth_key=" ++ key, "auth_timestamp=" ++ toString timestamp, "auth_version=1.0"] ++
      (match digest with
       | some d => if d = "" then [] else ["body_md5=" ++ d]
       | none => []))

/-- A fixed client instance used by concrete witnesses. -/
def pFix : Pusher := ⟨"app7", "k", "s", "mt1", true⟩

/-- A second fixed client agreeing with pFix on key and secret only. -/
def pFix2 : Pusher := ⟨"other-app", "k", "s", "eu", false⟩

/-- The client of the known-vector interoperability check. -/
def pusherVec : Pusher := ⟨"3", "278d425bdf160c739803", "7ad3773142a6692b25b8", "mt1", true⟩

/-- The member data of the known-vector interoperability check. -/
def memberVec : PresenceMemberData := ⟨"10", some (.obj [("name", .str "Mr. Pusher")])⟩

/-- An always-succeeding MD5 digest stub for witnesses. -/
def md5Stub : String → Except String String := fun _ => .ok "d41d8cd98f00b204e9800998ecf8427e"

/-! ### Validation of the embedded cryptography

The two theorems below pin the embedded SHA-256 and HMAC-SHA256
against published test vectors: the FIPS 180-4 single-block example
message abc, and the classic quick-brown-fox HMAC-SHA256 vector. They
certify that hmacHex is the reference computation the claims compare
the library against. -/

set_option maxRecDepth 100000 in
theorem sha256_fips_vector :
    bytesToHex (sha256 (utf8 "abc")) =
      "ba7816bf8f01cfea414140de5dae2223b00361a396177a9cb410ff61f20015ad" := by decide

set_option maxRecDepth 400000 in
theorem hmacSha256_fox_vector :
    hmacHex "key" "The quick brown fox jumps over the lazy dog" =
      "f7bc83f430538424b13298e6aa6fb143ef4d59a14946175997479dbc2d1a3cd8" := by decide

/-! ### Basic reduction lemmas -/

theorem strTruthy_none : strTruthy none = false := rfl

theorem strTruthy_some (s : String) : strTruthy (some s) = !(s == "") := rfl

theorem specCanonicalQuery_eq_source (key : String) (ts : Int) (md5 : Option String) :
    String.intercalate "&" (signedQueryEntries key ts md5) = specCanonicalQuery key ts md5 := by
  cases md5 with
  | none => rfl
  | some d =>
    by_cases hd : d = "" <;>
      simp [signedQueryEntries, specCanonicalQuery, strTruthy, hd]

/-- C1 -- For every method, path, integer timestamp, secret and optional
body digest, createSignature signs exactly
method newline path newline queryString, where queryString joins
auth_key, auth_timestamp, auth_version and (only when a non-empty
digest is supplied) body_md5 with ampersands in that order, and the
returned signature is the HMAC-SHA256 of that string under the secret
in lowercase hex; an absent or empty digest omits the body_md5 pair
entirely rather than sending an empty value. -/
theorem createSignature_canonical (md5f : String → Except String String) (p : Pusher)
    (method path : String) (ts : Int) (body md5 : Option String) :
    Pusher.createSignature (webCrypto md5f) p method path ts body md5 =
      .ok (hmacHex p.secret
        (method ++ "\n" ++ path ++ "\n" ++ specCanonicalQuery p.key ts md5)) := by
  simp [Pusher.createSignature, webCrypto, stringToSignOf, specCanonicalQuery_eq_source]

/-- C5 -- For non-empty socketId and channel, private channel
authorization signs exactly socketId colon channel with HMAC-SHA256
under the secret and returns auth as key colon signature with no
channel_data field. -/
theorem authorizeChannel_spec (md5f : String → Except String String) (p : Pusher)
    (socketId channel : String) (hs : socketId ≠ "") (hc : channel ≠ "") :
    Pusher.authorizeChannel (webCrypto md5f) p socketId channel =
      .ok ⟨p.key ++ ":" ++ hmacHex p.secret (socketId ++ ":" ++ channel), none⟩ := by
  simp [Pusher.authorizeChannel, Pusher.computeHMAC, webCrypto, hs, hc]

theorem authorizeChannel_spec_witness :
    ("1234.12" : String) ≠ "" ∧ ("private-x" : String) ≠ "" ∧
    Pusher.authorizeChannel (webCrypto md5Stub) pFix "1234.12" "private-x" =
      .ok ⟨pFix.key ++ ":" ++ hmacHex pFix.secret ("1234.12" ++ ":" ++ "private-x"), none⟩ :=
  ⟨by decide, by decide,
    authorizeChannel_spec md5Stub pFix "1234.12" "private-x" (by decide) (by decide)⟩

/-- C6 -- With an empty socketId or channel both channel authorization
operations fail with the invalid-argument error of the source before
any cryptographic work, the presence variant fails the same way when
the member data is absent, and it fails with the user_id error when
that field is empty; the statements hold for every runtime, which is
the embedded form of no signature being computed: even a runtime whose
signing primitive misbehaves cannot influence these results. -/
theorem auth_validation (rt : CryptoRuntime) (p : Pusher)
    (socketId channel : String) (pd : Option PresenceMemberData) :
    (socketId = "" ∨ channel = "" →
      Pusher.authorizeChannel rt p socketId channel =
        .error "Socket ID and channel are required for authorization" ∧
      Pusher.authenticatePresenceChannel rt p socketId channel pd =
        .error "Socket ID, channel, and presence data are required") ∧
    (pd = none →
      Pusher.authenticatePresenceChannel rt p socketId channel pd =
        .error "Socket ID, channel, and presence data are required") ∧
    (∀ d, pd = some d → d.user_id = "" →
      Pusher.authenticatePresenceChannel rt p socketId channel pd =
        .error "Socket ID, channel, and presence data are required" ∨
      Pusher.authenticatePresenceChannel rt p socketId channel pd =
        .error "user_id is required in presence data") := by
  refine ⟨?_, ?_, ?_⟩
  · rintro (h | h) <;>
      constructor <;>
      simp [Pusher.authorizeChannel, Pusher.authenticatePresenceChannel, h]
  · rintro rfl
    simp [Pusher.authenticatePresenceChannel]
  · rintro d rfl hu
    by_cases hs : socketId = ""
    · left; simp [Pusher.authenticatePresenceChannel, hs]
    · by_cases hc : channel = ""
      · left; simp [Pusher.authenticatePresenceChannel, hc]
      · right; simp [Pusher.authenticatePresenceChannel, hs, hc, hu]

theorem auth_validation_witness :
    Pusher.authorizeChannel (failingSignCrypto "crypto down" md5Stub) pFix "" "private-x" =
      .error "Socket ID and channel are required for authorization" :=
  ((auth_validation (failingSignCrypto "crypto down" md5Stub) pFix "" "private-x" none).1
    (Or.inl rfl)).1

/-- C10 -- The standalone PusherAuth class built from the same key and
secret behaves exactly as the Pusher class methods of the same names,
on every input and under every runtime, including the error cases. -/
theorem pusherAuth_equiv_pusher (rt : CryptoRuntime) (p : Pusher)
    (socketId channel : String) (pd : Option PresenceMemberData) :
    PusherAuth.authorizeChannel rt ⟨p.key, p.secret⟩ socketId channel =
      Pusher.authorizeChannel rt p socketId channel ∧
    PusherAuth.authenticatePresenceChannel rt ⟨p.key, p.secret⟩ socketId channel pd =
      Pusher.authenticatePresenceChannel rt p socketId channel pd :=
  ⟨rfl, rfl⟩

/-- C2 -- Behaviour of trigger when the digest primitive is
unavailable: computeMD5 falls back to the empty string, the canonical
string that is signed omits body_md5 entirely (it equals the no-digest
canonical string, so the signature is the no-digest signature exactly,
as the claim states), BUT the outgoing request still carries a
body_md5 parameter with an empty value, because the URLSearchParams
literal in the source includes body_md5 unconditionally. The claim
says the outgoing query contains no body_md5 key at all; the last
conjunct exhibits the contradicting pair. -/
theorem trigger_degraded_md5 (e : String) (p : Pusher) (ts : Int) (body : String) :
    Pusher.computeMD5 (degradedCrypto e) body = "" ∧
    stringToSignOf p.key "POST" ("/apps/" ++ p.appId ++ "/events") ts (some "") =
      stringToSignOf p.key "POST" ("/apps/" ++ p.appId ++ "/events") ts none ∧
    Pusher.triggerRequestParams (degradedCrypto e) p ts body =
      .ok [("auth_key", p.key), ("auth_timestamp", toString ts), ("auth_version", "1.0"),
           ("body_md5", ""),
           ("auth_signature", hmacHex p.secret
             (stringToSignOf p.key "POST" ("/apps/" ++ p.appId ++ "/events") ts none))] := by
  exact ⟨rfl, rfl, rfl⟩

/-- C3 counterexample -- getChannel with an info option sends the info
parameter on the request, but the canonical string that is signed
contains only the three auth entries: the pair info equals user_count
is not among the signed query entries, so a supplied parameter other
than auth_signature is missing from the canonicalized string, contrary
to the claim. -/
theorem getChannel_info_not_signed :
    Pusher.getChannelParams (webCrypto md5Stub) pFix 1000 "ch" (some ["user_count"]) =
      .ok [("auth_key", "k"), ("auth_timestamp", "1000"), ("auth_version", "1.0"),
           ("info", "user_count"),
           ("auth_signature",
             hmacHex "s" (stringToSignOf "k" "GET" "/apps/app7/channels/ch" 1000 none))] ∧
    ("info" ++ "=" ++ "user_count") ∉ signedQueryEntries "k" 1000 none := by
  constructor
  · rfl
  · decide

/-- C3 amended -- What the code actually canonicalizes: for trigger and
triggerBatch every outgoing parameter other than auth_signature
(auth_key, auth_timestamp, auth_version and a non-empty body_md5) has
its name equals value entry in the signed canonical query, whose fixed
insertion order of names is strictly alphabetical; for getChannel and
getChannels the signed canonical string always covers exactly the
three auth entries and ignores the optional info and filter_by_prefix
parameters, which are sent on the request unsigned, so the signature
is independent of them. Callers never influence parameter order in
either case. -/
theorem signed_params_amended (md5f : String → Except String String) (p : Pusher)
    (ts : Int) (md5 sig : String) (filterPfx : Option String)
    (info : Option (List String)) (channel : String) :
    (md5 ≠ "" → ∀ nv ∈ triggerQueryPairs p.key (toString ts) md5 sig,
      nv.1 ≠ "auth_signature" → nv.1 ++ "=" ++ nv.2 ∈ signedQueryEntries p.key ts (some md5)) ∧
    List.Chain' (fun a b : String => a < b)
      ["auth_key", "auth_timestamp", "auth_version", "body_md5"] ∧
    (Pusher.getChannelParams (webCrypto md5f) p ts channel info =
      .ok (getChannelQueryPairs p.key (toString ts) info
        (hmacHex p.secret
          (stringToSignOf p.key "GET" ("/apps/" ++ p.appId ++ "/channels/" ++ channel) ts none)))) ∧
    (Pusher.getChannelsParams (webCrypto md5f) p ts filterPfx info =
      .ok (getChannelsQueryPairs p.key (toString ts) filterPfx info
        (hmacHex p.secret
          (stringToSignOf p.key "GET" ("/apps/" ++ p.appId ++ "/channels") ts none)))) := by
  refine ⟨?_, ?_, rfl, rfl⟩
  case refine_2 =>
    simp only [List.chain'_cons, List.chain'_singleton, and_true]
    refine ⟨?_, ?_, ?_⟩ <;> (rw [String.lt_iff_toList_lt]; decide)
  intro h nv hnv hsig
  have hmd : strTruthy (some md5) = true := by
    simp [strTruthy, h]
  simp only [triggerQueryPairs, List.mem_cons, List.not_mem_nil, or_false] at hnv
  rcases hnv with rfl | rfl | rfl | rfl | rfl
  · simp [signedQueryEntries]
  · simp [signedQueryEntries]
  · simp [signedQueryEntries]
  · simp [signedQueryEntries, hmd]
  · exact absurd rfl hsig

theorem signed_params_amended_witness :
    ("d41d8cd9" : String) ≠ "" ∧
    ("auth_key" ++ "=" ++ "k") ∈ signedQueryEntries "k" (5 : Int) (some "d41d8cd9") :=
  ⟨by decide,
    (signed_params_amended md5Stub pFix 5 "d41d8cd9" "sig" none none "ch").1 (by decide)
      ("auth_key", "k") (by decide) (by decide)⟩

/-- C7 counterexample -- A failing signing primitive (key import
rejects with bad key import) does not escape trigger as an exception:
the try/catch converts it into an ordinary TriggerResponse value with
success false and the message in the error field, so the call returns
Except.ok rather than Except.error. -/
theorem trigger_swallows_crypto_failure :
    Pusher.trigger (failingSignCrypto "bad key import" md5Stub) .success pFix 1000 "x" =
      .ok ⟨false, some "bad key import", none⟩ := rfl

/-- C7 amended -- A failure of the signing primitive propagates
unretried and unconverted out of createSignature, computeHMAC, both
channel-authorization methods and the signing stage of getChannel and
getChannels, which have no handler; but trigger and triggerBatch each
catch every rejection and convert it into an ordinary non-exceptional
TriggerResponse value with success false carrying the message. -/
theorem crypto_failure_propagation (e : String) (md5f : String → Except String String)
    (p : Pusher) (socketId channel : String) (pd : PresenceMemberData)
    (method path : String) (ts : Int) (body md5 : Option String)
    (net : FetchOutcome) (bodyStr data : String)
    (hs : socketId ≠ "") (hc : channel ≠ "") (hu : pd.user_id ≠ "") :
    Pusher.createSignature (failingSignCrypto e md5f) p method path ts body md5 = .error e ∧
    Pusher.computeHMAC (failingSignCrypto e md5f) p data = .error e ∧
    Pusher.authorizeChannel (failingSignCrypto e md5f) p socketId channel = .error e ∧
    Pusher.authenticatePresenceChannel (failingSignCrypto e md5f) p socketId channel (some pd) =
      .error e ∧
    Pusher.getChannelParams (failingSignCrypto e md5f) p ts channel none = .error e ∧
    Pusher.getChannelsParams (failingSignCrypto e md5f) p ts none none = .error e ∧
    Pusher.trigger (failingSignCrypto e md5f) net p ts bodyStr = .ok ⟨false, some e, none⟩ ∧
    Pusher.triggerBatch (failingSignCrypto e md5f) net p ts bodyStr =
      .ok ⟨false, some e, none⟩ := by
  refine ⟨rfl, rfl, ?_, ?_, rfl, rfl, rfl, rfl⟩
  · simp [Pusher.authorizeChannel, Pusher.computeHMAC, failingSignCrypto, hs, hc]
  · simp [Pusher.authenticatePresenceChannel, Pusher.computeHMAC, failingSignCrypto, hs, hc, hu]

theorem crypto_failure_propagation_witness :
    ("1234.12" : String) ≠ "" ∧ ("presence-x" : String) ≠ "" ∧ ("u9" : String) ≠ "" ∧
    Pusher.authorizeChannel (failingSignCrypto "sign fault" md5Stub) pFix "1234.12" "presence-x" =
      .error "sign fault" :=
  ⟨by decide, by decide, by decide,
    (crypto_failure_propagation "sign fault" md5Stub pFix "1234.12" "presence-x"
      ⟨"u9", none⟩ "GET" "/x" 7 none none .success "b" "d"
      (by decide) (by decide) (by decide)).2.2.1⟩

/-! ### Shape of the hex-encoded HMAC output -/

theorem word4_mem {b w : Nat} (hb : b ∈ word4 w) : b < 256 := by
  simp [word4] at hb
  rcases hb with rfl | rfl | rfl | rfl <;> exact Nat.mod_lt _ (by norm_num)

theorem sha256_byte_lt (m : List Nat) {b : Nat} (hb : b ∈ sha256 m) : b < 256 := by
  simp only [sha256, stateBytes, List.mem_append] at hb
  rcases hb with ((((((h | h) | h) | h) | h) | h) | h) | h <;> exact word4_mem h

theorem sha256_length (m : List Nat) : (sha256 m).length = 32 := by
  simp [sha256, stateBytes, word4]

theorem hmacSha256_length (k m : List Nat) : (hmacSha256 k m).length = 32 :=
  sha256_length _

theorem hmacSha256_byte_lt (k m : List Nat) {b : Nat} (hb : b ∈ hmacSha256 k m) : b < 256 :=
  sha256_byte_lt _ hb

theorem flatTwo_length (bs : List Nat) :
    (bs.flatMap (fun b => [hexDigit (b / 16), hexDigit (b % 16)])).length = 2 * bs.length := by
  induction bs with
  | nil => rfl
  | cons b t ih => simp [List.flatMap_cons, ih]; omega

theorem bytesToHex_length (bs : List Nat) : (bytesToHex bs).length = 2 * bs.length :=
  flatTwo_length bs

theorem hexDigit_mem : ∀ n, n < 16 → hexDigit n ∈ hexAlphabet := by decide

theorem bytesToHex_mem (bs : List Nat) (h : ∀ b ∈ bs, b < 256) :
    ∀ c ∈ (bytesToHex bs).data, c ∈ hexAlphabet := by
  intro c hc
  have hc' : c ∈ bs.flatMap (fun b => [hexDigit (b / 16), hexDigit (b % 16)]) := hc
  simp only [List.mem_flatMap, List.mem_cons, List.not_mem_nil, or_false] at hc'
  obtain ⟨b, hb, hcb⟩ := hc'
  have hblt := h b hb
  rcases hcb with rfl | rfl
  · exact hexDigit_mem _ (Nat.div_lt_of_lt_mul (by omega))
  · exact hexDigit_mem _ (Nat.mod_lt _ (by norm_num))

theorem hmacHex_length (a b : String) : (hmacHex a b).length = 64 := by
  rw [hmacHex, bytesToHex_length, hmacSha256_length]

theorem hmacHex_mem (a b : String) : ∀ c ∈ (hmacHex a b).data, c ∈ hexAlphabet :=
  bytesToHex_mem _ (fun _ hb => hmacSha256_byte_lt _ _ hb)

/-- C9 -- The request signer is a pure deterministic function of its
canonicalized inputs: the result does not depend on the digest part of
the runtime nor on the unused body argument, two client instances
agreeing on key and secret sign identically whatever their other
credential fields, and the output is always a successful 64-character
string drawn from the lowercase hex alphabet. -/
theorem createSignature_pure (f g : String → Except String String) (p q : Pusher)
    (method path : String) (ts : Int) (body body' md5 : Option String) :
    (Pusher.createSignature (webCrypto f) p method path ts body md5 =
      Pusher.createSignature (webCrypto g) p method path ts body' md5) ∧
    (p.key = q.key → p.secret = q.secret →
      Pusher.createSignature (webCrypto f) p method path ts body md5 =
        Pusher.createSignature (webCrypto f) q method path ts body md5) ∧
    (∃ s, Pusher.createSignature (webCrypto f) p method path ts body md5 = .ok s ∧
      s.length = 64 ∧ ∀ c ∈ s.data, c ∈ hexAlphabet) := by
  refine ⟨rfl, ?_, ?_⟩
  · intro hk hs
    simp [Pusher.createSignature, webCrypto, hk, hs]
  · exact ⟨hmacHex p.secret (stringToSignOf p.key method path ts md5), rfl,
      hmacHex_length _ _, hmacHex_mem _ _⟩

theorem createSignature_pure_witness :
    pFix.key = pFix2.key ∧ pFix.secret = pFix2.secret ∧
    Pusher.createSignature (webCrypto md5Stub) pFix "GET" "/apps/app7/channels" 9 none none =
      Pusher.createSignature (webCrypto md5Stub) pFix2 "GET" "/apps/app7/channels" 9 none none :=
  ⟨by decide, by decide,
    (createSignature_pure md5Stub md5Stub pFix pFix2 "GET" "/apps/app7/channels" 9
      none none none).2.1 (by decide) (by decide)⟩

set_option maxRecDepth 1000000 in
/-- C4 -- For valid presence inputs the returned auth is
key colon HMAC-SHA256 of socketId colon channel colon channelData
under the secret in lowercase hex, where channelData is the JSON
serialization of the member data; and on the interoperability vector
(key 278d425bdf160c739803, secret 7ad3773142a6692b25b8, socket
1234.1234, channel presence-foobar, member user 10 named Mr. Pusher)
the auth equals the fixed reference hex value computed by the
FIPS-validated HMAC-SHA256 of this file over the exact canonical
string, locking the contract down to a constant. -/
theorem authenticatePresence_canonical :
    (∀ (f : String → Except String String) (p : Pusher) (socketId channel : String)
      (pd : PresenceMemberData),
      socketId ≠ "" → channel ≠ "" → pd.user_id ≠ "" →
      Pusher.authenticatePresenceChannel (webCrypto f) p socketId channel (some pd) =
        .ok ⟨p.key ++ ":" ++
              hmacHex p.secret (socketId ++ ":" ++ channel ++ ":" ++ memberDataString pd),
             some (memberDataString pd)⟩) ∧
    Pusher.authenticatePresenceChannel (webCrypto md5Stub) pusherVec
        "1234.1234" "presence-foobar" (some memberVec) =
      .ok ⟨"278d425bdf160c739803:48dac51d2d7569e1e9c0f48c227d4b26f238fa68e5c0bb04222c966909c4f7c4",
           some "\x7b\"user_id\":\"10\",\"user_info\":\x7b\"name\":\"Mr. Pusher\"\x7d\x7d"⟩ := by
  constructor
  · intro f p socketId channel pd hs hc hu
    simp [Pusher.authenticatePresenceChannel, Pusher.computeHMAC, webCrypto, hs, hc, hu]
  · rfl

theorem authenticatePresence_canonical_witness :
    ("1234.1234" : String) ≠ "" ∧ ("presence-foobar" : String) ≠ "" ∧
    memberVec.user_id ≠ "" ∧
    Pusher.authenticatePresenceChannel (webCrypto md5Stub) pusherVec
        "1234.1234" "presence-foobar" (some memberVec) =
      .ok ⟨pusherVec.key ++ ":" ++
            hmacHex pusherVec.secret
              ("1234.1234" ++ ":" ++ "presence-foobar" ++ ":" ++ memberDataString memberVec),
           some (memberDataString memberVec)⟩ :=
  ⟨by decide, by decide, by decide,
    authenticatePresence_canonical.1 md5Stub pusherVec "1234.1234" "presence-foobar"
      memberVec (by decide) (by decide) (by decide)⟩

/-! ### JSON stringify and parse round-trip, and the presence
channel_data contract -/

theorem hexVal_hexDigit : ∀ n, n < 16 → hexVal (hexDigit n) = some n := by decide

theorem hexVal_zero : hexVal '0' = some 0 := by decide



theorem parseStrChars_escape (s rest : List Char) :
    parseStrChars (s.flatMap escapeChar ++ '"' :: rest) = some (s, rest) := by
  induction s with
  | nil =>
    rw [parseStrChars.eq_def]
    simp
  | cons c t ih =>
    simp only [List.flatMap_cons, List.append_assoc]
    by_cases h1 : c = '"'
    · subst h1
      have he : escapeChar '"' = ['\\', '"'] := by simp [escapeChar]
      rw [he]
      simp only [List.cons_append, List.nil_append]
      rw [parseStrChars.eq_def]
      simp [ih]
    · by_cases h2 : c = '\\'
      · subst h2
        have he : escapeChar '\\' = ['\\', '\\'] := by simp [escapeChar]
        rw [he]
        simp only [List.cons_append, List.nil_append]
        rw [parseStrChars.eq_def]
        simp [ih]
      · by_cases h3 : c.toNat = 8
        · have hc : c = Char.ofNat 8 := by rw [← h3, Char.ofNat_toNat]
          subst hc
          have he : escapeChar (Char.ofNat 8) = ['\\', 'b'] := by decide
          rw [he]
          simp only [List.cons_append, List.nil_append]
          rw [parseStrChars.eq_def]
          simp [ih]
        · by_cases h4 : c.toNat = 9
          · have hc : c = Char.ofNat 9 := by rw [← h4, Char.ofNat_toNat]
            subst hc
            have he : escapeChar (Char.ofNat 9) = ['\\', 't'] := by decide
            rw [he]
            simp only [List.cons_append, List.nil_append]
            rw [parseStrChars.eq_def]
            simp [ih]
          · by_cases h5 : c.toNat = 10
            · have hc : c = Char.ofNat 10 := by rw [← h5, Char.ofNat_toNat]
              subst hc
              have he : escapeChar (Char.ofNat 10) = ['\\', 'n'] := by decide
              rw [he]
              simp only [List.cons_append, List.nil_append]
              rw [parseStrChars.eq_def]
              simp [ih]
            · by_cases h6 : c.toNat = 12
              · have hc : c = Char.ofNat 12 := by rw [← h6, Char.ofNat_toNat]
                subst hc
                have he : escapeChar (Char.ofNat 12) = ['\\', 'f'] := by decide
                rw [he]
                simp only [List.cons_append, List.nil_append]
                rw [parseStrChars.eq_def]
                simp [ih]
              · by_cases h7 : c.toNat = 13
                · have hc : c = Char.ofNat 13 := by rw [← h7, Char.ofNat_toNat]
                  subst hc
                  have he : escapeChar (Char.ofNat 13) = ['\\', 'r'] := by decide
                  rw [he]
                  simp only [List.cons_append, List.nil_append]
                  rw [parseStrChars.eq_def]
                  simp [ih]
                · by_cases h8 : c.toNat < 32
                  · have he : escapeChar c =
                        ['\\', 'u', '0', '0', hexDigit (c.toNat / 16), hexDigit (c.toNat % 16)] := by
                      simp [escapeChar, h1, h2, h3, h4, h5, h6, h7, h8]
                    rw [he]
                    simp only [List.cons_append, List.nil_append]
                    rw [parseStrChars.eq_def]
                    have hhi : c.toNat / 16 < 16 := Nat.div_lt_of_lt_mul (by omega)
                    have hlo : c.toNat % 16 < 16 := Nat.mod_lt _ (by norm_num)
                    have harith : c.toNat / 16 * 16 + c.toNat % 16 = c.toNat :=
                      Nat.div_add_mod' _ _
                    simp [ih, hexVal_zero, hexVal_hexDigit _ hhi, hexVal_hexDigit _ hlo,
                      harith, Char.ofNat_toNat]
                  · have he : escapeChar c = [c] := by
                      simp [escapeChar, h1, h2, h3, h4, h5, h6, h7, h8]
                    rw [he]
                    simp only [List.cons_append, List.nil_append]
                    rw [parseStrChars.eq_def]
                    simp [ih, h1, h2]

theorem sizeJson_pos (j : Json) : 1 ≤ sizeJson j := by
  cases j <;> simp [sizeJson]

theorem sizeFields_pos (fs : List (String × Json)) : 1 ≤ sizeFields fs := by
  cases fs with
  | nil => simp [sizeFields]
  | cons kv r => simp [sizeFields]

theorem stringifySep_cons (k : String) (v : Json) (r : List (String × Json)) :
    stringifySep ((k, v) :: r) = ',' :: stringifyFields ((k, v) :: r) := by
  simp [stringifySep, stringifyFields]

theorem fields_head (k : String) (v : Json) (r : List (String × Json)) :
    stringifyFields ((k, v) :: r) =
      '"' :: ((k.data.flatMap escapeChar ++ ['"']) ++ ':' :: (stringifyJson v ++ stringifySep r)) := by
  simp [stringifyFields, quoteString]

theorem size_le_length (n : Nat) :
    (∀ j, sizeJson j ≤ n → sizeJson j ≤ (stringifyJson j).length) ∧
    (∀ fs, sizeFields fs ≤ n → sizeFields fs ≤ (stringifyFields fs).length + 1) := by
  induction n with
  | zero =>
    constructor
    · intro j hj; have := sizeJson_pos j; omega
    · intro fs hf; have := sizeFields_pos fs; omega
  | succ n ih =>
    constructor
    · intro j hj
      cases j with
      | str s =>
        simp [sizeJson, stringifyJson, quoteString]
      | obj fs =>
        cases fs with
        | nil => simp [sizeJson, sizeFields, stringifyJson, stringifyFields]
        | cons kv r =>
          have hf : sizeFields (kv :: r) ≤ n := by
            simp [sizeJson] at hj; omega
          have H := ih.2 (kv :: r) hf
          simp [sizeJson, stringifyJson]
          omega
    · intro fs hf
      cases fs with
      | nil => simp [sizeFields, stringifyFields]
      | cons kv r =>
        obtain ⟨k, v⟩ := kv
        have hv : sizeJson v ≤ n := by
          simp [sizeFields] at hf
          have := sizeFields_pos r; omega
        have hr : sizeFields r ≤ n := by
          simp [sizeFields] at hf
          have := sizeJson_pos v; omega
        have Hv := ih.1 v hv
        have Hr := ih.2 r hr
        have hlen : (stringifyFields ((k, v) :: r)).length =
            (quoteString k).length + 1 + (stringifyJson v).length + (stringifySep r).length := by
          simp [stringifyFields]
          omega
        have hq : (quoteString k).length = (k.data.flatMap escapeChar).length + 2 := by
          simp [quoteString]
        cases r with
        | nil =>
          have hsep : (stringifySep ([] : List (String × Json))).length = 0 := by
            simp [stringifySep]
          simp only [sizeFields]
          omega
        | cons kv2 r2 =>
          obtain ⟨k2, v2⟩ := kv2
          have hsep : (stringifySep ((k2, v2) :: r2)).length =
              (stringifyFields ((k2, v2) :: r2)).length + 1 := by
            rw [stringifySep_cons]
            simp
          simp only [sizeFields] at Hr ⊢
          omega

theorem string_eta (k : String) : (⟨k.data⟩ : String) = k := rfl

theorem parse_stringify (n : Nat) :
    (∀ j, sizeJson j ≤ n → ∀ fuel rest, sizeJson j ≤ fuel →
       parseVal fuel (stringifyJson j ++ rest) = some (j, rest)) ∧
    (∀ fs, fs ≠ [] → sizeFields fs ≤ n → ∀ fuel rest, sizeFields fs ≤ fuel →
       parseFields fuel (stringifyFields fs ++ rbrace :: rest) = some (fs, rest)) := by
  induction n with
  | zero =>
    constructor
    · intro j hj
      exact absurd hj (by have := sizeJson_pos j; omega)
    · intro fs _ hf
      exact absurd hf (by have := sizeFields_pos fs; omega)
  | succ n ih =>
    constructor
    · intro j hj fuel rest hfuel
      obtain ⟨f, rfl⟩ : ∃ f, fuel = f + 1 :=
        ⟨fuel - 1, by have := sizeJson_pos j; omega⟩
      cases j with
      | str s =>
        have harr : stringifyJson (.str s) ++ rest =
            '"' :: (s.data.flatMap escapeChar ++ '"' :: rest) := by
          simp [stringifyJson, quoteString]
        rw [harr, parseVal.eq_def]
        simp [parseStrChars_escape, string_eta]
      | obj fs =>
        cases fs with
        | nil =>
          have harr : stringifyJson (.obj []) ++ rest = lbrace :: rbrace :: rest := by
            simp [stringifyJson, stringifyFields]
          have c1 : ¬(lbrace = '"') := by decide
          rw [harr, parseVal.eq_def]
          simp [c1]
        | cons kv r =>
          obtain ⟨k, v⟩ := kv
          have hsz : sizeFields ((k, v) :: r) ≤ n := by
            simp [sizeJson] at hj; omega
          have hfz : sizeFields ((k, v) :: r) ≤ f := by
            simp [sizeJson] at hfuel; omega
          have hne : ((k, v) :: r) ≠ [] := by simp
          have hIH := ih.2 ((k, v) :: r) hne hsz f rest hfz
          obtain ⟨T, hT⟩ : ∃ T, stringifyFields ((k, v) :: r) = '"' :: T :=
            ⟨_, fields_head k v r⟩
          have harr : stringifyJson (.obj ((k, v) :: r)) ++ rest =
              lbrace :: ('"' :: (T ++ rbrace :: rest)) := by
            simp [stringifyJson, hT]
          rw [harr, parseVal.eq_def]
          rw [hT] at hIH
          simp only [List.cons_append] at hIH
          have c1 : ¬(lbrace = '"') := by decide
          have c2 : ¬('"' = rbrace) := by decide
          simp [c1, c2, hIH]
    · intro fs hne hsz fuel rest hfuel
      obtain ⟨f, rfl⟩ : ∃ f, fuel = f + 1 :=
        ⟨fuel - 1, by have := sizeFields_pos fs; omega⟩
      cases fs with
      | nil => exact absurd rfl hne
      | cons kv r =>
        obtain ⟨k, v⟩ := kv
        have harr : stringifyFields ((k, v) :: r) ++ rbrace :: rest =
            '"' :: (k.data.flatMap escapeChar ++ '"' ::
              (':' :: (stringifyJson v ++ (stringifySep r ++ rbrace :: rest)))) := by
          simp [stringifyFields, quoteString]
        have hv_sz : sizeJson v ≤ n := by
          simp [sizeFields] at hsz
          have := sizeFields_pos r; omega
        have hv_f : sizeJson v ≤ f := by
          simp [sizeFields] at hfuel
          have := sizeFields_pos r; omega
        have hIHv := ih.1 v hv_sz f (stringifySep r ++ rbrace :: rest) hv_f
        rw [harr, parseFields.eq_def]
        cases r with
        | nil =>
          have hsep0 : stringifySep ([] : List (String × Json)) = [] := by
            simp [stringifySep]
          rw [hsep0] at hIHv ⊢
          simp only [List.nil_append] at hIHv ⊢
          have c3 : ¬(rbrace = ',') := by decide
          simp [parseStrChars_escape, hIHv, c3, string_eta]
        | cons kv2 r2 =>
          obtain ⟨k2, v2⟩ := kv2
          have hr_sz : sizeFields ((k2, v2) :: r2) ≤ n := by
            simp only [sizeFields] at hsz ⊢
            have := sizeJson_pos v; omega
          have hr_f : sizeFields ((k2, v2) :: r2) ≤ f := by
            simp only [sizeFields] at hfuel ⊢
            have := sizeJson_pos v; omega
          have hne2 : ((k2, v2) :: r2) ≠ [] := by simp
          have hIHr := ih.2 ((k2, v2) :: r2) hne2 hr_sz f rest hr_f
          rw [stringifySep_cons] at hIHv ⊢
          simp only [List.cons_append, List.append_assoc] at hIHv ⊢
          simp [parseStrChars_escape, hIHv, hIHr, string_eta]

theorem JSONparse_stringify (j : Json) : JSONparse (stringifyStr j) = some j := by
  have hsz := (size_le_length (sizeJson j)).1 j le_rfl
  have hlen : sizeJson j ≤ (stringifyStr j).length + 1 := by
    have hdl : (stringifyStr j).length = (stringifyJson j).length := rfl
    omega
  have h := (parse_stringify (sizeJson j)).1 j le_rfl ((stringifyStr j).length + 1) [] hlen
  rw [List.append_nil] at h
  unfold JSONparse
  rw [show (stringifyStr j).data = stringifyJson j from rfl, h]

/-- C8 -- For every valid presence authorization the returned
channel_data is exactly the string concatenated into the signed
canonical string (the auth is the HMAC over socketId colon channel
colon that very string), and JSON-parsing the returned channel_data
recovers the original member data, proved for all member data over the
modelled JSON universe via the stringify/parse round-trip above. -/
theorem presence_channel_data (f : String → Except String String) (p : Pusher)
    (socketId channel : String) (pd : PresenceMemberData)
    (hs : socketId ≠ "") (hc : channel ≠ "") (hu : pd.user_id ≠ "") :
    Pusher.authenticatePresenceChannel (webCrypto f) p socketId channel (some pd) =
      .ok ⟨p.key ++ ":" ++
            hmacHex p.secret (socketId ++ ":" ++ channel ++ ":" ++ memberDataString pd),
           some (memberDataString pd)⟩ ∧
    JSONparse (memberDataString pd) = some (memberJson pd) := by
  constructor
  · simp [Pusher.authenticatePresenceChannel, Pusher.computeHMAC, webCrypto, hs, hc, hu]
  · exact JSONparse_stringify (memberJson pd)

theorem presence_channel_data_witness :
    ("77.11" : String) ≠ "" ∧ ("presence-room" : String) ≠ "" ∧ ("u1" : String) ≠ "" ∧
    (Pusher.authenticatePresenceChannel (webCrypto md5Stub) pFix "77.11" "presence-room"
        (some ⟨"u1", some (.obj [("name", .str "A")])⟩) =
      .ok ⟨pFix.key ++ ":" ++
            hmacHex pFix.secret ("77.11" ++ ":" ++ "presence-room" ++ ":" ++
              memberDataString ⟨"u1", some (.obj [("name", .str "A")])⟩),
           some (memberDataString ⟨"u1", some (.obj [("name", .str "A")])⟩)⟩ ∧
     JSONparse (memberDataString ⟨"u1", some (.obj [("name", .str "A")])⟩) =
       some (memberJson ⟨"u1", some (.obj [("name", .str "A")])⟩)) :=
  ⟨by decide, by decide, by decide,
    presence_channel_data md5Stub pFix "77.11" "presence-room"
      ⟨"u1", some (.obj [("name", .str "A")])⟩ (by decide) (by decide) (by decide)⟩

end PusherCF
